import Mathlib

/-!
Verification development for the Arena simulation core
(`src/Arena/environment/entities.py`, `arena.py`, `vectorHelper.py`,
`longinus.py`).

The Python code is shallowly embedded: pygame tick timestamps (milliseconds,
`pygame.time.get_ticks()`) are `Int`; Python `int` fields are `Int`; Python
`float` arithmetic is modelled by exact rationals `ℚ` except where IEEE
special values matter (`vec_norm`), where an explicit `PyFloat` type with
infinities and NaN is used.  Python code that raises is embedded with
`Except Unit`.
-/

/-- Python `int(x)` on a float: truncation toward zero. -/
def pyInt (q : ℚ) : ℤ :=
  if 0 ≤ q then ⌊q⌋ else -⌊-q⌋

/-- The eight enemy archetypes of `EnemyTypes` (entities.py lines 406-414). -/
inductive EnemyTypes where
  | RAMMER
  | TANKIER_RAMMER
  | EXPLOSIVE_RAMMER
  | GOTTAGOFAST
  | PEW_PEW
  | BIG_PEW_PEW
  | SPAWNCEPTION
  | DIFFICULTY_LONGINUS
deriving DecidableEq, Repr

/-- `SPAWN_SPAWNER = True` (entities.py line 25). -/
def SPAWN_SPAWNER : Bool := true

/-- `SPAWN_ENEMY = False` (entities.py line 26). -/
def SPAWN_ENEMY : Bool := false

/-!
## Hittable damage state (`Hittable.take_damage`, entities.py lines 228-235)

Only the fields that `take_damage` and the invincibility decay of
`Hittable.update` read or write are carried; `take_damage` touches no other
attribute of the Python object.
-/

structure HittableState where
  health : ℤ
  invincible : Bool
  i_frames_start : ℤ
  i_time : ℤ
deriving DecidableEq, Repr

/-- `Hittable.take_damage(amount)` at current tick `now`
(entities.py lines 228-235): no-op while invincible, otherwise subtract,
clamp to `0`, set invincible and stamp `i_frames_start`. -/
def take_damage (s : HittableState) (amount : ℤ) (now : ℤ) : HittableState :=
  if s.invincible then s
  else
    { s with
      health := max 0 (s.health - amount)
      invincible := true
      i_frames_start := now }

/-- Invincibility decay step of `Hittable.update` (entities.py lines
247-250): invincibility is dropped once `now - i_frames_start > i_time`. -/
def invincibility_decay (s : HittableState) (now : ℤ) : HittableState :=
  if s.invincible ∧ now - s.i_frames_start > s.i_time then
    { s with invincible := false }
  else s

/-!
## Player.heal (entities.py lines 368-378)

`heal` adds to `health`; on overheal it bumps `max_health` by
`int(overheal / 10 / (max_health / 100))`, clamps `health` to the new
`max_health`, and bumps `power` by `int(overheal / 20 / (power / 10))`.
Python float division by zero raises `ZeroDivisionError`, so the overheal
branch is embedded with `Option`: `none` models the raise when
`max_health = 0` or `power = 0`.
-/

structure PlayerHealState where
  health : ℤ
  max_health : ℤ
  power : ℤ
deriving DecidableEq, Repr

/-- `Player.heal(amount)` (entities.py lines 368-378).  Returns `none` when
the overheal branch would divide by zero (`max_health = 0` or `power = 0`). -/
def heal (p : PlayerHealState) (amount : ℤ) : Option PlayerHealState :=
  let h := p.health + amount
  if h > p.max_health then
    if p.max_health = 0 ∨ p.power = 0 then none
    else
      let overheal : ℤ := h - p.max_health
      let mh := p.max_health + pyInt ((overheal : ℚ) / 10 / ((p.max_health : ℚ) / 100))
      let pw := p.power + pyInt ((overheal : ℚ) / 20 / ((p.power : ℚ) / 10))
      some { health := mh, max_health := mh, power := pw }
  else some { p with health := h }

/-- The `max_health` increment `heal` grants for a given overheal, read off a
`heal` result (`0` when the call raised). -/
def mhGain (p : PlayerHealState) (amount : ℤ) : ℤ :=
  match heal p amount with
  | some p' => p'.max_health - p.max_health
  | none => 0

/-!
## World and entity lifecycle model

Entities register themselves in `env.hittables` on construction
(`Hittable.__init__`, entities.py lines 225-227; the same list also receives
`Spawner`, `Enemy`, `Longinus` and `Husk` instances through the shared base
constructor).  An entity is modelled by a unique numeric identity (Python
object identity; `in`/`remove` on `env.hittables` compare by identity) and a
kind tag (its Python class, plus the archetype for `Enemy`).  Construction
appends to the list, matching `list.append`.  Per-entity stats (health,
hitbox, ...) are not carried at the world level: no claim reads them there.
-/

inductive EntityKind where
  | player
  | husk
  | spawner
  | enemy (ty : EnemyTypes)
  | longinus
deriving DecidableEq, Repr

def EntityKind.isLonginus : EntityKind → Bool
  | .longinus => true
  | _ => false

def EntityKind.isHusk : EntityKind → Bool
  | .husk => true
  | _ => false

def EntityKind.isSpawner : EntityKind → Bool
  | .spawner => true
  | _ => false

structure Entity where
  id : ℕ
  kind : EntityKind
deriving DecidableEq, Repr

structure World where
  hittables : List Entity
  nextId : ℕ
deriving DecidableEq, Repr

/-- Constructor registration: `self.env.hittables.append(self)`
(entities.py line 227) with a fresh object identity. -/
def World.addEntity (w : World) (k : EntityKind) : World :=
  { hittables := w.hittables ++ [⟨w.nextId, k⟩], nextId := w.nextId + 1 }

/-- Number of `Longinus` instances in `env.hittables`. -/
def World.countLonginus (w : World) : ℕ :=
  (w.hittables.filter (fun e => e.kind.isLonginus)).length

/-- The `isinstance(enem, Longinus)` scan of `try_spawn_with_cooldown`
(entities.py lines 645-648). -/
def World.hasLonginus (w : World) : Bool :=
  w.hittables.any (fun e => e.kind.isLonginus)

def World.countHusk (w : World) : ℕ :=
  (w.hittables.filter (fun e => e.kind.isHusk)).length

/-- `Hittable.destroy` (entities.py lines 292-298): the removal from
`env.hittables` is guarded by a membership test, but the `Husk` creation
(which self-registers into `env.hittables`) is unconditional for every
non-`Player`, non-`Husk` entity. -/
def destroy (e : Entity) (w : World) : World :=
  let w1 :=
    if w.hittables.any (fun x => x.id == e.id) then
      { w with hittables := w.hittables.eraseP (fun x => x.id == e.id) }
    else w
  if e.kind = .player ∨ e.kind = .husk then w1
  else { hittables := w1.hittables ++ [⟨w1.nextId, .husk⟩], nextId := w1.nextId + 1 }

/-!
## Fabricator (entities.py lines 609-652)

`try_spawn_with_cooldown` is embedded with `Except`: the Python call can
raise.  In particular the boss-absent branch always raises `KeyError`:
`Longinus.__init__` (longinus.py lines 102-108) forwards its arguments
*positionally* into `Enemy.__init__` (entities.py lines 430-436) shifted by
one slot — `angle` receives `difficulty`, `difficulty` receives `type`,
`type` receives `target`, `iteration` receives `env` — so the lookup
`enemy_type_modifiers[type]` at entities.py line 438 uses the `Player`
target (or `None`) as key and raises before any entity is registered.
Likewise `Enemy(...)`with `type=None` would raise `KeyError` (no claim
exercises it).  The `difficulty`/`target`/`iteration` arguments only shape
per-entity stats, which the world-level model does not carry.
-/

structure Fabricator where
  spawn_cooldown : ℤ
  last_spawn_time : ℤ
deriving DecidableEq, Repr

/-- `Fabricator.try_spawn_with_cooldown` (entities.py lines 619-652).
Returns the Python return value, the updated fabricator state and the
updated world, or `.error ()` when the call raises. -/
def Fabricator.try_spawn_with_cooldown (fab : Fabricator) (now : ℤ)
    (w : World) (spawn_what : Bool) (ty : Option EnemyTypes) :
    Except Unit (Bool × Fabricator × World) :=
  if now - fab.last_spawn_time < fab.spawn_cooldown then
    .ok (false, fab, w)
  else
    let fab' : Fabricator := { fab with last_spawn_time := now }
    if spawn_what = SPAWN_SPAWNER then
      .ok (false, fab', w.addEntity .spawner)
    else if ty ≠ some EnemyTypes.DIFFICULTY_LONGINUS then
      match ty with
      | some t => .ok (false, fab', w.addEntity (.enemy t))
      | none => .error ()
    else
      if w.hasLonginus then .ok (true, fab', w)
      else .error ()

/-- One call of a (caller-supplied) fabricator against the shared world. -/
structure SpawnCall where
  fab : Fabricator
  now : ℤ
  spawn_what : Bool
  ty : Option EnemyTypes
deriving DecidableEq, Repr

/-- Run a sequence of `try_spawn_with_cooldown` calls against the world,
stopping at the first raised exception (as Python execution would). -/
def runCalls : List SpawnCall → World → Except Unit World
  | [], w => .ok w
  | c :: cs, w =>
    match c.fab.try_spawn_with_cooldown c.now w c.spawn_what c.ty with
    | .error e => .error e
    | .ok (_, _, w') => runCalls cs w'

/-!
## Spawner (entities.py lines 571-607)

`Spawner.update` ends with (lines 606-607):
`if self.source.try_spawn_with_cooldown(self.position, SPAWN_ENEMY,
self.difficulty, self.target, self.spawn_type): self.destroy()` —
the spawner destroys itself only when the fabricator call returns `True`.
Only this fabrication/destruction step is embedded; the physics of
`super().update(dt)` and the reward bookkeeping do not touch the modelled
state.  `position`/`target` are omitted: they shape only per-entity stats.
-/

structure SpawnerData where
  id : ℕ
  spawn_type : EnemyTypes
  source : Fabricator
deriving DecidableEq, Repr

/-- The fabrication/destruction step of `Spawner.update`
(entities.py lines 606-607). -/
def spawner_spawn_step (sp : SpawnerData) (now : ℤ) (w : World) :
    Except Unit (SpawnerData × World) :=
  match sp.source.try_spawn_with_cooldown now w SPAWN_ENEMY
      (some sp.spawn_type) with
  | .error e => .error e
  | .ok (b, fab', w') =>
    if b then .ok ({ sp with source := fab' }, destroy ⟨sp.id, .spawner⟩ w')
    else .ok ({ sp with source := fab' }, w')

/-!
## Swept AABB collision (`rect_sweep`, entities.py lines 30-107)

`pygame.Rect` stores integer `left/top/width/height` with
`right = left + width`, `bottom = top + height`; `colliderect` is the
strict-overlap test (degenerate rectangles never collide).  The velocity is
a float pair, modelled as `ℚ`.  An obstacle is modelled by its optional
hitbox and its membership in the `exceptions` set; the embedded function
returns the *index* of the hit obstacle where the Python function returns
the object itself.
-/

structure Rect where
  left : ℤ
  top : ℤ
  width : ℤ
  height : ℤ
deriving DecidableEq, Repr

def Rect.right (r : Rect) : ℤ := r.left + r.width

def Rect.bottom (r : Rect) : ℤ := r.top + r.height

/-- pygame `Rect.colliderect`: strict overlap on both axes. -/
def colliderect (a b : Rect) : Bool :=
  decide (a.left < b.right) && decide (b.left < a.right) &&
  decide (a.top < b.bottom) && decide (b.top < a.bottom)

/-- Per-axis entry/exit times of `rect_sweep` (entities.py lines 59-92).
`none` is the `continue` of a zero-velocity axis without static overlap;
`some none` is the `(-∞, +∞)` band of a zero-velocity axis with static
overlap; `some (some (e, x))` the finite `entry/v`, `exit/v` pair (the
source picks the entry/exit distances by the sign of `v` before dividing;
for `v = 0` those distances are computed but unused). -/
def axis_times (v : ℚ) (rLo rHi bLo bHi : ℤ) : Option (Option (ℚ × ℚ)) :=
  if v = 0 then
    if rHi ≤ bLo ∨ bHi ≤ rLo then none
    else some none
  else if v > 0 then
    some (some (((bLo - rHi : ℤ) : ℚ) / v, ((bHi - rLo : ℤ) : ℚ) / v))
  else
    some (some (((bHi - rLo : ℤ) : ℚ) / v, ((bLo - rHi : ℤ) : ℚ) / v))

/-- Combined entry/exit interval: `t_entry = max(tx_entry, ty_entry)`,
`t_exit = min(tx_exit, ty_exit)` (entities.py lines 94-97), with the
infinite bands resolved; `some none` is the doubly-banded case whose
`t_entry = -∞` always fails the final `t_entry < 0` test. -/
def sweep_entry_exit (r : Rect) (v : ℚ × ℚ) (b : Rect) :
    Option (Option (ℚ × ℚ)) :=
  match axis_times v.1 r.left r.right b.left b.right,
        axis_times v.2 r.top r.bottom b.top b.bottom with
  | none, _ => none
  | some _, none => none
  | some none, some none => some none
  | some none, some (some p) => some (some p)
  | some (some p), some none => some (some p)
  | some (some (ex, xx)), some (some (ey, xy)) =>
      some (some (max ex ey, min xx xy))

/-- The valid swept entry time of one candidate, after the
`t_entry > t_exit or t_entry < 0 or t_entry > 1` rejection
(entities.py line 100): `some t` iff the candidate would update the sweep
state at entry time `t`. -/
def sweep_time (r : Rect) (v : ℚ × ℚ) (b : Rect) : Option ℚ :=
  match sweep_entry_exit r v b with
  | some (some (e, x)) => if e ≤ x ∧ 0 ≤ e ∧ e ≤ 1 then some e else none
  | _ => none

/-- An obstacle of the `rect_sweep` candidate list: its hitbox (`None`
hitboxes are skipped) and whether it is in the `exceptions` set. -/
structure Obstacle where
  hitbox : Option Rect
  excluded : Bool
deriving DecidableEq, Repr

/-- The `not_friendlies` filter (entities.py lines 49-50), keeping each
obstacle's index in the original list. -/
def candidates (obstacles : List Obstacle) : List (ℕ × Rect) :=
  obstacles.enum.filterMap fun p =>
    match p.2.hitbox, p.2.excluded with
    | some b, false => some (p.1, b)
    | _, _ => none

/-- The hitbox of the obstacle at index `i` when that obstacle is a live
candidate (present, not excluded, hitbox not `None`). -/
def candidateBox (obstacles : List Obstacle) (i : ℕ) : Option Rect :=
  match obstacles[i]? with
  | some o => if o.excluded then none else o.hitbox
  | none => none

/-- One iteration of the `rect_sweep` loop body (entities.py lines 52-105)
on the state `(earliest_t, hit_object)`: a statically overlapping candidate
unconditionally takes the state with the sentinel `earliest_t = -1`
(lines 55-57); then a valid swept entry time strictly below the current
`earliest_t` takes the state (lines 103-105). -/
def sweep_step (r : Rect) (v : ℚ × ℚ) (s : ℚ × Option ℕ) (c : ℕ × Rect) :
    ℚ × Option ℕ :=
  let s1 := if colliderect r c.2 then (-1, some c.1) else s
  match sweep_time r v c.2 with
  | some t => if t < s1.1 then (t, some c.1) else s1
  | none => s1

/-- The full `rect_sweep` loop from the initial state
`earliest_t = 1.0, hit_object = None` (entities.py lines 46-47). -/
def sweep_run (r : Rect) (v : ℚ × ℚ) (obstacles : List Obstacle) :
    ℚ × Option ℕ :=
  (candidates obstacles).foldl (sweep_step r v) (1, none)

/-- `rect_sweep` (entities.py lines 30-107): the index of the returned
obstacle, or `none`. -/
def rect_sweep (r : Rect) (v : ℚ × ℚ) (obstacles : List Obstacle) :
    Option ℕ :=
  (sweep_run r v obstacles).2

/-- A returnable hit: the index addresses a live candidate that either
statically overlaps or has a valid swept entry time in `[0, 1]`. -/
def goodHit (r : Rect) (v : ℚ × ℚ) (obstacles : List Obstacle) (j : ℕ) :
    Prop :=
  ∃ b, candidateBox obstacles j = some b ∧
    (colliderect r b = true ∨ ∃ t, sweep_time r v b = some t ∧ 0 ≤ t ∧ t ≤ 1)

/-- The sweep state after processing a statically overlapping candidate:
sentinel time `-1` and an overlapping hit. -/
def overlapState (r : Rect) (obstacles : List Obstacle) (s : ℚ × Option ℕ) :
    Prop :=
  s.1 = -1 ∧ ∃ j b, s.2 = some j ∧ candidateBox obstacles j = some b ∧
    colliderect r b = true

/-!
## Explosion (entities.py lines 158-202)

`Explosion.update` first removes itself once `now - start_time ≥
life_expectancy`; otherwise it filters `env.hittables` to those not in
`self.already_hit`, prefilters by distance, and damages every target whose
hitbox intersects the explosion's.  The knockback `pushed(...)` call of the
same branch only mutates the target's velocity, which no claim reads, and is
not carried here.  Crucially, the source never appends anything to
`self.already_hit` — the returned explosion state is unchanged.

The distance prefilter compares `hypot` values; `sqrt_le_add` decides
`√a ≤ c + √b` exactly over `ℚ` (for `a, b, c ≥ 0`):
`√a ≤ c + √b ⟺ a ≤ c² + b + 2c√b ⟺ a - c² - b ≤ 2c√b
⟺ a - c² - b ≤ 0 ∨ (a - c² - b)² ≤ 4c²b`.
-/

def sqrt_le_add (a c b : ℚ) : Bool :=
  decide (a - c ^ 2 - b ≤ 0) || decide ((a - c ^ 2 - b) ^ 2 ≤ 4 * c ^ 2 * b)

/-- The prefilter `vec_len(self.position, h.position) <= self.radius +
math.hypot(h.hitbox.width/2, h.hitbox.width/2)` (entities.py lines 184-185)
decided exactly: `a = dist²`, `c = radius`, `b = 2·(width/2)²`. -/
def explosion_prefilter (expl_pos t_pos : ℚ × ℚ) (radius width : ℤ) : Bool :=
  sqrt_le_add ((t_pos.1 - expl_pos.1) ^ 2 + (t_pos.2 - expl_pos.2) ^ 2)
    (radius : ℚ) (2 * ((width : ℚ) / 2) ^ 2)

/-- A Hittable as seen by an `Explosion.update` pass: identity, damageable
state, position, optional hitbox. -/
structure Target where
  id : ℕ
  hs : HittableState
  position : ℚ × ℚ
  hitbox : Option Rect
deriving DecidableEq, Repr

structure Explosion where
  position : ℚ × ℚ
  damage : ℤ
  radius : ℤ
  hitbox : Rect
  life_expectancy : ℤ
  start_time : ℤ
  already_hit : List ℕ
deriving DecidableEq, Repr

/-- Whether one target is damaged by this `Explosion.update` pass
(entities.py lines 182-187): not in `already_hit`, hitbox present, within
the distance prefilter, and hitboxes intersecting. -/
def explosion_hits (ex : Explosion) (t : Target) : Bool :=
  decide (¬ t.id ∈ ex.already_hit) &&
  (match t.hitbox with
   | some b =>
       explosion_prefilter ex.position t.position ex.radius b.width &&
       colliderect ex.hitbox b
   | none => false)

/-- `Explosion.update` (entities.py lines 174-202): `none` when the
explosion expired and removed itself from `env.bullets`; otherwise the
(unchanged!) explosion and the damaged targets.  `already_hit` is filtered
on but never extended by the source. -/
def Explosion.update (ex : Explosion) (now : ℤ) (targets : List Target) :
    Option (Explosion × List Target) :=
  if now - ex.start_time ≥ ex.life_expectancy then none
  else
    some (ex, targets.map fun t =>
      if explosion_hits ex t then
        { t with hs := take_damage t.hs ex.damage now }
      else t)

/-!
## World tick bookkeeping (`ArenaEnv.update`, arena.py lines 222-253)

Only the post-physics bookkeeping (lines 232-252) is embedded: the spawner
view is recomputed by filtering `hittables`, `alive` is recomputed from the
player's health, and — while alive — an empty spawner view with an empty
teleporter list increments the difficulty, stamps `out_of_spawners`, and
creates one Teleporter (cooldown 1000, last-spawn and start timestamps
`now`) per selected position; `try_spawning_spawners` then runs over all
pending teleporters; with spawners still present the teleporter list is
cleared instead.

`select_spawners_positions` (arena.py lines 133-149) draws `difficulty + 1`
positions from `random.randint` — modelled by a caller-supplied stream with
a cursor — rerolling each while it lies within `spawn_padding * 2 = 160`
units of the agent; the unbounded `while` receives fuel, `none` modelling
non-termination.  The `vec_len(...) < 160` test is decided exactly on
squared distances.
-/

/-- `Teleporter` (entities.py lines 654-661): a `Fabricator` plus the fixed
spawn position and the start timestamp for the countdown visual. -/
structure Teleporter where
  pos : ℚ × ℚ
  fab : Fabricator
  started : ℤ
deriving DecidableEq, Repr

/-- The reroll test `vec_len(rand_pos, self.agent.position) <
spawn_padding * 2` (arena.py line 143), decided on squared distances. -/
def too_close (p q : ℚ × ℚ) : Bool :=
  decide ((p.1 - q.1) ^ 2 + (p.2 - q.2) ^ 2 < 160 ^ 2)

/-- One position draw of `select_spawners_positions` (arena.py lines
138-146): draw at stream cursor `k`, reroll while too close to the agent. -/
def pick_position (agent : ℚ × ℚ) (stream : ℕ → ℚ × ℚ) :
    ℕ → ℕ → Option ((ℚ × ℚ) × ℕ)
  | 0, _ => none
  | fuel + 1, k =>
    if too_close (stream k) agent then
      pick_position agent stream fuel (k + 1)
    else some (stream k, k + 1)

/-- `select_spawners_positions` (arena.py lines 133-149) drawing `n`
positions, threading the stream cursor. -/
def select_spawners_positions (agent : ℚ × ℚ) (stream : ℕ → ℚ × ℚ)
    (fuel : ℕ) : ℕ → ℕ → Option (List (ℚ × ℚ) × ℕ)
  | 0, k => some ([], k)
  | n + 1, k =>
    match pick_position agent stream fuel k with
    | none => none
    | some (p, k') =>
      match select_spawners_positions agent stream fuel n k' with
      | none => none
      | some (ps, k'') => some (p :: ps, k'')

/-- `ArenaEnv.try_spawning_spawners` (arena.py lines 156-161): run
`try_spawn_with_cooldown(tper.pos, SPAWN_SPAWNER, difficulty, agent)` on
every pending teleporter, ignoring the return value; each teleporter's
fabricator state is updated in place and spawned Spawners register into
`hittables`.  The SPAWN_SPAWNER branch never raises; `none` only propagates
a (here unreachable) exception. -/
def try_spawning_spawners (now : ℤ) :
    List Teleporter → World → Option (List Teleporter × World)
  | [], w => some ([], w)
  | t :: ts, w =>
    match t.fab.try_spawn_with_cooldown now w SPAWN_SPAWNER none with
    | .error _ => none
    | .ok (_, fab', w') =>
      match try_spawning_spawners now ts w' with
      | none => none
      | some (ts', w'') => some ({ t with fab := fab' } :: ts', w'')

/-- The post-physics world state touched by the bookkeeping of
`ArenaEnv.update`. -/
structure ArenaState where
  difficulty : ℤ
  out_of_spawners : ℤ
  teleporters : List Teleporter
  world : World
  agent_health : ℤ
  agent_pos : ℚ × ℚ
deriving DecidableEq, Repr

/-- The bookkeeping tail of `ArenaEnv.update` (arena.py lines 232-252),
taking the post-physics state: recompute the spawner view and `alive`
(`out_of_health` for the player is `health <= 0`; the `-inf` sentinel is
never set on the Player), and run the AWAITING_RESPAWN logic.  Note the
`+ 1 + 1`: `select_spawners_positions` reads `self.difficulty` *after* the
increment, so `difficulty + 1 + 1` positions are drawn relative to the old
difficulty — exactly `newDifficulty + 1`. -/
def arena_update_tail (st : ArenaState) (now : ℤ) (stream : ℕ → ℚ × ℚ)
    (k fuel : ℕ) : Option ArenaState :=
  if st.agent_health ≤ 0 then some st
  else if (st.world.hittables.filter (fun e => e.kind.isSpawner)).length
      = 0 then
    let step1 : Option (ℤ × ℤ × List Teleporter) :=
      if st.teleporters.length = 0 then
        match select_spawners_positions st.agent_pos stream fuel
            ((st.difficulty + 1 + 1).toNat) k with
        | none => none
        | some (ps, _) =>
          some (st.difficulty + 1, now,
                ps.map fun p => ⟨p, ⟨1000, now⟩, now⟩)
      else some (st.difficulty, st.out_of_spawners, st.teleporters)
    match step1 with
    | none => none
    | some (d', oos', tps) =>
      match try_spawning_spawners now tps st.world with
      | none => none
      | some (tps', w') =>
        some { st with
          difficulty := d', out_of_spawners := oos',
          teleporters := tps', world := w' }
  else
    some { st with teleporters := [] }

/-!
## vec_norm (vectorHelper.py lines 8-25)

`vec_norm` is the one function whose contract is about IEEE special values,
so floats are modelled by an explicit type: finite values (carried as `ℚ`),
signed infinities, and NaN with a sign bit (`math.copysign` reads the sign
bit even of a NaN).  Python float division raises `ZeroDivisionError` on a
zero denominator, hence `pydiv` is `Except`-valued.

`math.hypot` returns `+inf` whenever an argument is infinite (even paired
with NaN), NaN when an argument is NaN and none is infinite, and on finite
arguments the Euclidean magnitude `√(x² + y²)` — irrational in general, so
the finite case takes a caller-supplied magnitude `hypotFin`; the theorem
assumes of it only what the Euclidean magnitude satisfies (it vanishes
exactly on the zero vector), and the witness instantiates it with the
taxicab magnitude `|x| + |y|`, which agrees with the Euclidean one on
zeroness, finiteness and sign. -/

inductive PyFloat where
  | fin (q : ℚ)
  | inf (neg : Bool)
  | nan (neg : Bool)
deriving DecidableEq, Repr

/-- `math.isfinite`. -/
def PyFloat.isfinite : PyFloat → Bool
  | .fin _ => true
  | _ => false

/-- Whether the float is an infinity. -/
def PyFloat.isInf : PyFloat → Bool
  | .inf _ => true
  | _ => false

/-- The Python comparison `v == 0` (false on infinities and NaN). -/
def PyFloat.eqZero : PyFloat → Bool
  | .fin q => decide (q = 0)
  | _ => false

/-- The IEEE sign bit (`true` = negative). -/
def PyFloat.sgnBit : PyFloat → Bool
  | .fin q => decide (q < 0)
  | .inf s => s
  | .nan s => s

/-- `math.copysign(1.0, y)`. -/
def copysign_one (y : PyFloat) : PyFloat :=
  .fin (if y.sgnBit then -1 else 1)

/-- `math.hypot` on the float model; `hypotFin` supplies the finite-case
magnitude. -/
def mhypot (hypotFin : ℚ → ℚ → ℚ) : PyFloat → PyFloat → PyFloat
  | .inf _, _ => .inf false
  | _, .inf _ => .inf false
  | .nan _, _ => .nan false
  | _, .nan _ => .nan false
  | .fin a, .fin b => .fin (hypotFin a b)

/-- Python float division; `ZeroDivisionError` on a zero denominator. -/
def pydiv (a b : PyFloat) : Except Unit PyFloat :=
  match b with
  | .fin q =>
    if q = 0 then .error ()
    else
      match a with
      | .fin p => .ok (.fin (p / q))
      | .inf s => .ok (.inf (xor s (decide (q < 0))))
      | .nan s => .ok (.nan s)
  | .inf _ =>
    match a with
    | .fin _ => .ok (.fin 0)
    | .inf _ => .ok (.nan false)
    | .nan s => .ok (.nan s)
  | .nan sb =>
    match a with
    | .nan s => .ok (.nan s)
    | _ => .ok (.nan sb)

/-- The value `0.0 if v == 0 else math.copysign(1.0, v)` computed by the
non-finite branch of `vec_norm` (vectorHelper.py lines 16-17). -/
def signVal : PyFloat → ℚ
  | .fin q => if q = 0 then 0 else if q < 0 then -1 else 1
  | .inf s => if s then -1 else 1
  | .nan s => if s then -1 else 1

/-- `vec_norm` (vectorHelper.py lines 8-25). -/
def vec_norm (hypotFin : ℚ → ℚ → ℚ) (v : PyFloat × PyFloat) :
    Except Unit (PyFloat × PyFloat) :=
  let length := mhypot hypotFin v.1 v.2
  if length.eqZero then .ok (.fin 0, .fin 0)
  else if !v.1.isfinite || !v.2.isfinite then
    let sx := if v.1.eqZero then PyFloat.fin 0 else copysign_one v.1
    let sy := if v.2.eqZero then PyFloat.fin 0 else copysign_one v.2
    let length2 := mhypot hypotFin sx sy
    if length2.eqZero then .ok (.fin 0, .fin 0)
    else do
      let x ← pydiv sx length2
      let y ← pydiv sy length2
      .ok (x, y)
  else do
    let x ← pydiv v.1 length
    let y ← pydiv v.2 length
    .ok (x, y)

/-!
## Claim theorems: C5, C7
-/

/-- C5: `take_damage` on a non-invincible Hittable with `health ≥ 0` and a
nonnegative `amount` clamps health to `max 0 (health - amount)`, raises the
invincibility flag, and stamps the invincibility timestamp with `now`;
while invincible every further `take_damage` leaves the whole state
unchanged, so a second call after a first effective call is a no-op and
health never becomes negative. -/
theorem take_damage_invincibility (s : HittableState) (a a' now now' : ℤ) :
    (s.invincible = false → 0 ≤ s.health → 0 ≤ a →
      take_damage s a now =
        { health := max 0 (s.health - a), invincible := true,
          i_frames_start := now, i_time := s.i_time }) ∧
    (s.invincible = true → take_damage s a now = s) ∧
    (s.invincible = false →
      take_damage (take_damage s a now) a' now' = take_damage s a now) ∧
    (0 ≤ s.health → 0 ≤ (take_damage s a now).health) := by
  refine ⟨?_, ?_, ?_, ?_⟩
  · intro hinv _ _
    simp [take_damage, hinv]
  · intro hinv
    simp [take_damage, hinv]
  · intro hinv
    simp [take_damage, hinv]
  · intro hh
    by_cases hinv : s.invincible
    · simpa [take_damage, hinv] using hh
    · simp [take_damage, hinv]

/-- Witness for C5 at a concrete input. -/
theorem take_damage_invincibility_witness :
    take_damage ⟨100, false, -9999, 600⟩ 30 1000 =
      ⟨70, true, 1000, 600⟩ ∧
    take_damage (take_damage ⟨100, false, -9999, 600⟩ 30 1000) 30 1200 =
      take_damage ⟨100, false, -9999, 600⟩ 30 1000 := by
  have h := take_damage_invincibility ⟨100, false, -9999, 600⟩ 30 30 1000 1200
  exact ⟨by rw [h.1 rfl (by decide) (by decide)]; decide, h.2.2.1 rfl⟩

/-- C7 counterexample: the claim asserts the `max_health` increment is
*strictly* smaller at a larger `max_health`, but truncation makes it only
weakly smaller: with overheal `1`, a player at `max_health = 100` and a
player at `max_health = 200` both gain `int(10·1/m) = 0`, so the gain at
`200` is not strictly less than the gain at `100`. -/
theorem heal_gain_not_strict :
    mhGain ⟨100, 100, 10⟩ 1 = 0 ∧ mhGain ⟨200, 200, 10⟩ 1 = 0 ∧
    (100 : ℤ) < 200 ∧
    ¬ mhGain ⟨200, 200, 10⟩ 1 < mhGain ⟨100, 100, 10⟩ 1 := by
  have h1 : mhGain ⟨100, 100, 10⟩ 1 = 0 := by
    simp only [mhGain, heal, pyInt]
    norm_num
  have h2 : mhGain ⟨200, 200, 10⟩ 1 = 0 := by
    simp only [mhGain, heal, pyInt]
    norm_num
  exact ⟨h1, h2, by norm_num, by rw [h1, h2]; exact lt_irrefl 0⟩

/-- On a full-health player, `heal` with a positive amount takes the overheal
branch and the `max_health` gain is `pyInt` of `amount/10/(max_health/100)`. -/
theorem mhGain_full_health (m pow a : ℤ) (hm : 0 < m) (hpow : 0 < pow)
    (ha : 0 < a) :
    mhGain ⟨m, m, pow⟩ a = pyInt ((a : ℚ) / 10 / ((m : ℚ) / 100)) ∧
    heal ⟨m, m, pow⟩ a =
      some ⟨m + pyInt ((a : ℚ) / 10 / ((m : ℚ) / 100)),
            m + pyInt ((a : ℚ) / 10 / ((m : ℚ) / 100)),
            pow + pyInt ((a : ℚ) / 20 / ((pow : ℚ) / 10))⟩ := by
  have hover : m + a > m := by omega
  have hz : ¬ (m = 0 ∨ pow = 0) := by omega
  constructor
  · simp [mhGain, heal, hover, hz]
  · simp [heal, hover, hz]

/-- C7 (amended): for a fixed overheal amount the `max_health` increment of
`Player.heal` is weakly (not strictly) decreasing as `max_health` grows —
the pre-truncation gain `10·overheal/max_health` is strictly decreasing, but
`int()` truncation can equalize neighbouring values — and after an overheal
the health is clamped to the new `max_health`. -/
theorem heal_gain_antitone (m1 m2 pow a : ℤ) (h1 : 0 < m1) (h12 : m1 ≤ m2)
    (hpow : 0 < pow) (ha : 0 < a) :
    mhGain ⟨m2, m2, pow⟩ a ≤ mhGain ⟨m1, m1, pow⟩ a ∧
    (10 * (a : ℚ) / m2 ≤ 10 * (a : ℚ) / m1) ∧
    (∀ p', heal ⟨m1, m1, pow⟩ a = some p' → p'.health = p'.max_health) := by
  have h2 : (0 : ℤ) < m2 := lt_of_lt_of_le h1 h12
  have hm1q : (0 : ℚ) < (m1 : ℚ) := by exact_mod_cast h1
  have hm2q : (0 : ℚ) < (m2 : ℚ) := by exact_mod_cast h2
  have haq : (0 : ℚ) < (a : ℚ) := by exact_mod_cast ha
  have hsimp : ∀ m : ℤ, (0 : ℤ) < m →
      (a : ℚ) / 10 / ((m : ℚ) / 100) = 10 * (a : ℚ) / (m : ℚ) := by
    intro m hm
    have : (m : ℚ) ≠ 0 := by positivity
    field_simp
    ring
  have hdiv : 10 * (a : ℚ) / (m2 : ℚ) ≤ 10 * (a : ℚ) / (m1 : ℚ) := by
    have hmm : (m1 : ℚ) ≤ (m2 : ℚ) := by exact_mod_cast h12
    gcongr
  refine ⟨?_, hdiv, ?_⟩
  · rw [(mhGain_full_health m1 pow a h1 hpow ha).1,
      (mhGain_full_health m2 pow a h2 hpow ha).1, hsimp m1 h1, hsimp m2 h2]
    have hp2 : (0 : ℚ) ≤ 10 * (a : ℚ) / (m2 : ℚ) := by positivity
    have hp1 : (0 : ℚ) ≤ 10 * (a : ℚ) / (m1 : ℚ) := by positivity
    rw [pyInt, if_pos hp2, pyInt, if_pos hp1]
    exact Int.floor_le_floor hdiv
  · intro p' hp'
    rw [(mhGain_full_health m1 pow a h1 hpow ha).2] at hp'
    cases hp'
    rfl

/-- Witness for the amended C7 at a concrete input. -/
theorem heal_gain_antitone_witness :
    mhGain ⟨200, 200, 10⟩ 1 ≤ mhGain ⟨100, 100, 10⟩ 1 ∧
    (∀ p', heal ⟨100, 100, 10⟩ 1 = some p' → p'.health = p'.max_health) := by
  have h := heal_gain_antitone 100 200 10 1 (by norm_num) (by norm_num)
    (by norm_num) (by norm_num)
  exact ⟨h.1, h.2.2⟩

theorem countLonginus_addEntity (w : World) (k : EntityKind)
    (hk : k.isLonginus = false) :
    (w.addEntity k).countLonginus = w.countLonginus := by
  simp [World.addEntity, World.countLonginus, List.filter_append, hk]

/-- No branch of `try_spawn_with_cooldown` that returns normally changes the
number of `Longinus` instances: the spawner/enemy branches append
non-`Longinus` entities, the boss-present branch appends nothing, and the
boss-absent branch raises inside the `Longinus` constructor. -/
theorem try_spawn_countLonginus (fab : Fabricator) (now : ℤ) (w : World)
    (sw : Bool) (ty : Option EnemyTypes) (b : Bool) (fab' : Fabricator)
    (w' : World)
    (h : fab.try_spawn_with_cooldown now w sw ty = .ok (b, fab', w')) :
    w'.countLonginus = w.countLonginus := by
  rw [Fabricator.try_spawn_with_cooldown] at h
  by_cases hg : now - fab.last_spawn_time < fab.spawn_cooldown
  · rw [if_pos hg] at h
    cases h
    rfl
  · rw [if_neg hg] at h
    by_cases hsw : sw = SPAWN_SPAWNER
    · rw [if_pos hsw] at h
      cases h
      exact countLonginus_addEntity w .spawner rfl
    · rw [if_neg hsw] at h
      by_cases hty : ty ≠ some EnemyTypes.DIFFICULTY_LONGINUS
      · rw [if_pos hty] at h
        match ty, h with
        | some t, h =>
          cases h
          exact countLonginus_addEntity w (.enemy t) rfl
      · rw [if_neg hty] at h
        by_cases hl : w.hasLonginus
        · rw [if_pos hl] at h
          cases h
          rfl
        · rw [if_neg hl] at h
          cases h

/-- C1: boss exclusivity.  Across any sequence of `try_spawn_with_cooldown`
calls, if the world starts with at most one `Longinus` in `env.hittables`
then every normally-reached world still has at most one (in fact the count
never changes: the guard creates a boss only when none is present, and that
construction raises before registering anything); and a boss request made
while a `Longinus` already exists creates nothing — `env.hittables` is
returned unchanged. -/
theorem longinus_exclusivity (calls : List SpawnCall) (w : World)
    (hinit : w.countLonginus ≤ 1) :
    (∀ w', runCalls calls w = .ok w' → w'.countLonginus ≤ 1) ∧
    (∀ c : SpawnCall, c.spawn_what = SPAWN_ENEMY →
      c.ty = some EnemyTypes.DIFFICULTY_LONGINUS → w.hasLonginus = true →
      ∀ b fab' w',
        c.fab.try_spawn_with_cooldown c.now w c.spawn_what c.ty =
          .ok (b, fab', w') →
        w'.hittables = w.hittables) := by
  constructor
  · have key : ∀ cs : List SpawnCall, ∀ v : World, ∀ v',
        runCalls cs v = .ok v' → v'.countLonginus = v.countLonginus := by
      intro cs
      induction cs with
      | nil =>
        intro v v' h
        cases h
        rfl
      | cons c cs ih =>
        intro v v' h
        rw [runCalls] at h
        cases hcall : c.fab.try_spawn_with_cooldown c.now v c.spawn_what c.ty with
        | error e =>
          rw [hcall] at h
          cases h
        | ok r =>
          obtain ⟨b, fab', v1⟩ := r
          rw [hcall] at h
          have h1 := try_spawn_countLonginus c.fab c.now v c.spawn_what c.ty
            b fab' v1 hcall
          rw [ih v1 v' h, h1]
    intro w' h
    rw [key calls w w' h]
    exact hinit
  · intro c hsw0 hty hpresent b fab' w' h
    rw [Fabricator.try_spawn_with_cooldown, hsw0, hty] at h
    by_cases hg : c.now - c.fab.last_spawn_time < c.fab.spawn_cooldown
    · rw [if_pos hg] at h
      cases h
      rfl
    · rw [if_neg hg] at h
      simp only [SPAWN_ENEMY, SPAWN_SPAWNER, Bool.false_eq_true, if_false,
        ne_eq, not_true_eq_false, hpresent, if_true] at h
      cases h
      rfl

/-- Witness for C1 at a concrete input: a boss request passing the cooldown
gate while a `Longinus` is already present leaves the world unchanged. -/
theorem longinus_exclusivity_witness :
    (∀ w', runCalls
        [⟨⟨500, -999⟩, 0, SPAWN_ENEMY, some EnemyTypes.DIFFICULTY_LONGINUS⟩]
        ⟨[⟨0, .longinus⟩], 1⟩ = .ok w' → w'.countLonginus ≤ 1) ∧
    runCalls
        [⟨⟨500, -999⟩, 0, SPAWN_ENEMY, some EnemyTypes.DIFFICULTY_LONGINUS⟩]
        ⟨[⟨0, .longinus⟩], 1⟩ = .ok ⟨[⟨0, .longinus⟩], 1⟩ := by
  have h := longinus_exclusivity
    [⟨⟨500, -999⟩, 0, SPAWN_ENEMY, some EnemyTypes.DIFFICULTY_LONGINUS⟩]
    ⟨[⟨0, .longinus⟩], 1⟩ (by decide)
  exact ⟨h.1, rfl⟩

/-- The branch behavior of `try_spawn_with_cooldown`: gate rejection with no
side effect; stamping plus one appended entity for the spawner/regular-enemy
branches; the boss-present no-op; the boss-absent raise; and the two-call
gate corollaries. -/
theorem try_spawn_branches (fab : Fabricator) (now now2 : ℤ)
    (w w2 : World) (sw sw2 : Bool) (ty ty2 : Option EnemyTypes)
    (t : EnemyTypes) :
    (now - fab.last_spawn_time < fab.spawn_cooldown →
      fab.try_spawn_with_cooldown now w sw ty = .ok (false, fab, w)) ∧
    (¬ now - fab.last_spawn_time < fab.spawn_cooldown →
      fab.try_spawn_with_cooldown now w SPAWN_SPAWNER ty =
        .ok (false, ⟨fab.spawn_cooldown, now⟩, w.addEntity .spawner)) ∧
    (¬ now - fab.last_spawn_time < fab.spawn_cooldown →
      t ≠ EnemyTypes.DIFFICULTY_LONGINUS →
      fab.try_spawn_with_cooldown now w SPAWN_ENEMY (some t) =
        .ok (false, ⟨fab.spawn_cooldown, now⟩, w.addEntity (.enemy t))) ∧
    (¬ now - fab.last_spawn_time < fab.spawn_cooldown →
      w.hasLonginus = true →
      fab.try_spawn_with_cooldown now w SPAWN_ENEMY
          (some EnemyTypes.DIFFICULTY_LONGINUS) =
        .ok (true, ⟨fab.spawn_cooldown, now⟩, w)) ∧
    (¬ now - fab.last_spawn_time < fab.spawn_cooldown →
      w.hasLonginus = false →
      fab.try_spawn_with_cooldown now w SPAWN_ENEMY
          (some EnemyTypes.DIFFICULTY_LONGINUS) = .error ()) ∧
    (now2 - now < fab.spawn_cooldown →
      Fabricator.try_spawn_with_cooldown ⟨fab.spawn_cooldown, now⟩ now2 w2
          sw2 ty2 =
        .ok (false, ⟨fab.spawn_cooldown, now⟩, w2)) ∧
    (fab.spawn_cooldown ≤ now2 - now →
      ¬ now2 - (⟨fab.spawn_cooldown, now⟩ : Fabricator).last_spawn_time <
          (⟨fab.spawn_cooldown, now⟩ : Fabricator).spawn_cooldown) := by
  refine ⟨?_, ?_, ?_, ?_, ?_, ?_, ?_⟩
  · intro hg
    rw [Fabricator.try_spawn_with_cooldown, if_pos hg]
  · intro hg
    rw [Fabricator.try_spawn_with_cooldown, if_neg hg]
    simp [SPAWN_SPAWNER]
  · intro hg ht
    rw [Fabricator.try_spawn_with_cooldown, if_neg hg]
    simp [SPAWN_ENEMY, SPAWN_SPAWNER, ht]
  · intro hg hl
    rw [Fabricator.try_spawn_with_cooldown, if_neg hg]
    simp [SPAWN_ENEMY, SPAWN_SPAWNER, hl]
  · intro hg hl
    rw [Fabricator.try_spawn_with_cooldown, if_neg hg]
    simp [SPAWN_ENEMY, SPAWN_SPAWNER, hl]
  · intro hg2
    rw [Fabricator.try_spawn_with_cooldown]
    simp only []
    rw [if_pos hg2]
  · intro hg2
    simp only []
    omega

/-- C2: cooldown gating of `try_spawn_with_cooldown`.  (i) A call within the
cooldown returns `false` with no side effect; (ii)-(iv) a call at or past the
cooldown stamps `last_spawn_time := now` and appends exactly one entity (a
Spawner or an Enemy; nothing when a boss is requested and one is present);
(v) is the divergence from the claim: a boss request with no boss present
stamps the time but then raises `KeyError` inside the `Longinus` constructor
(argument shift into `Enemy.__init__`), creating nothing; (vi)-(vii) a second
call less than `spawn_cooldown` ms after a stamping call is rejected with no
side effect, and a second call at least `spawn_cooldown` ms later passes the
gate again. -/
theorem try_spawn_cooldown_gating (fab : Fabricator) (now now2 : ℤ)
    (w w2 : World) (sw sw2 : Bool) (ty ty2 : Option EnemyTypes)
    (t : EnemyTypes) :
    (now - fab.last_spawn_time < fab.spawn_cooldown →
      fab.try_spawn_with_cooldown now w sw ty = .ok (false, fab, w)) ∧
    (¬ now - fab.last_spawn_time < fab.spawn_cooldown →
      fab.try_spawn_with_cooldown now w SPAWN_SPAWNER ty =
        .ok (false, ⟨fab.spawn_cooldown, now⟩, w.addEntity .spawner)) ∧
    (¬ now - fab.last_spawn_time < fab.spawn_cooldown →
      t ≠ EnemyTypes.DIFFICULTY_LONGINUS →
      fab.try_spawn_with_cooldown now w SPAWN_ENEMY (some t) =
        .ok (false, ⟨fab.spawn_cooldown, now⟩, w.addEntity (.enemy t))) ∧
    (¬ now - fab.last_spawn_time < fab.spawn_cooldown →
      w.hasLonginus = true →
      fab.try_spawn_with_cooldown now w SPAWN_ENEMY
          (some EnemyTypes.DIFFICULTY_LONGINUS) =
        .ok (true, ⟨fab.spawn_cooldown, now⟩, w)) ∧
    (¬ now - fab.last_spawn_time < fab.spawn_cooldown →
      w.hasLonginus = false →
      fab.try_spawn_with_cooldown now w SPAWN_ENEMY
          (some EnemyTypes.DIFFICULTY_LONGINUS) = .error ()) ∧
    (now2 - now < fab.spawn_cooldown →
      Fabricator.try_spawn_with_cooldown ⟨fab.spawn_cooldown, now⟩ now2 w2
          sw2 ty2 =
        .ok (false, ⟨fab.spawn_cooldown, now⟩, w2)) ∧
    (fab.spawn_cooldown ≤ now2 - now →
      ¬ now2 - (⟨fab.spawn_cooldown, now⟩ : Fabricator).last_spawn_time <
          (⟨fab.spawn_cooldown, now⟩ : Fabricator).spawn_cooldown) :=
  try_spawn_branches fab now now2 w w2 sw sw2 ty ty2 t

/-- Witness for C2 at concrete inputs. -/
theorem try_spawn_cooldown_gating_witness :
    Fabricator.try_spawn_with_cooldown ⟨1000, -999⟩ 500 ⟨[], 0⟩ SPAWN_ENEMY
        (some EnemyTypes.RAMMER) =
      .ok (false, ⟨1000, 500⟩, World.addEntity ⟨[], 0⟩ (.enemy .RAMMER)) ∧
    Fabricator.try_spawn_with_cooldown ⟨1000, 500⟩ 1200 ⟨[⟨0, .enemy .RAMMER⟩], 1⟩
        SPAWN_ENEMY (some EnemyTypes.RAMMER) =
      .ok (false, ⟨1000, 500⟩, ⟨[⟨0, .enemy .RAMMER⟩], 1⟩) ∧
    Fabricator.try_spawn_with_cooldown ⟨1000, -999⟩ 500 ⟨[], 0⟩ SPAWN_ENEMY
        (some EnemyTypes.DIFFICULTY_LONGINUS) = .error () := by
  have h1 := try_spawn_cooldown_gating ⟨1000, -999⟩ 500 1200 ⟨[], 0⟩
    ⟨[⟨0, .enemy .RAMMER⟩], 1⟩ SPAWN_ENEMY SPAWN_ENEMY
    (some EnemyTypes.RAMMER) (some EnemyTypes.RAMMER) EnemyTypes.RAMMER
  refine ⟨h1.2.2.1 (by decide) (by decide), ?_, ?_⟩
  · exact h1.2.2.2.2.2.1 (by decide)
  · exact h1.2.2.2.2.1 (by decide) rfl

/-- C6 counterexample: a second `destroy()` on the same Enemy is not a
no-op.  Starting from a world holding one RAMMER, the first `destroy`
removes it and registers a Husk; the second `destroy` removes nothing but
registers a second Husk, so the world changes and the Husk count grows. -/
theorem destroy_twice_not_noop :
    destroy ⟨0, .enemy .RAMMER⟩
        (destroy ⟨0, .enemy .RAMMER⟩ ⟨[⟨0, .enemy .RAMMER⟩], 1⟩) ≠
      destroy ⟨0, .enemy .RAMMER⟩ ⟨[⟨0, .enemy .RAMMER⟩], 1⟩ ∧
    (destroy ⟨0, .enemy .RAMMER⟩
        (destroy ⟨0, .enemy .RAMMER⟩ ⟨[⟨0, .enemy .RAMMER⟩], 1⟩)).countHusk =
      (destroy ⟨0, .enemy .RAMMER⟩ ⟨[⟨0, .enemy .RAMMER⟩], 1⟩).countHusk + 1 := by
  decide

/-- C6 (amended): a second `destroy()` on an entity already gone from
`env.hittables` removes nothing further — every listed entity survives — but
it is not a full no-op: for a non-`Player`, non-`Husk` entity it appends one
additional `Husk` each time (the Husk creation in `destroy` is not guarded
by the membership test).  Only the removal is idempotent. -/
theorem destroy_second_call_effect (e : Entity) (w : World)
    (hgone : ∀ x ∈ w.hittables, x.id ≠ e.id) :
    (destroy e w).hittables =
      w.hittables ++
        (if e.kind = .player ∨ e.kind = .husk then []
         else [⟨w.nextId, EntityKind.husk⟩]) ∧
    (∀ x ∈ w.hittables, x ∈ (destroy e w).hittables) ∧
    (¬ (e.kind = .player ∨ e.kind = .husk) →
      (destroy e w).countHusk = w.countHusk + 1) := by
  have hany : w.hittables.any (fun x => x.id == e.id) = false := by
    rw [List.any_eq_false]
    intro x hx
    simpa using hgone x hx
  have hmain : (destroy e w).hittables =
      w.hittables ++
        (if e.kind = .player ∨ e.kind = .husk then []
         else [⟨w.nextId, EntityKind.husk⟩]) := by
    rw [destroy]
    simp only [hany, Bool.false_eq_true, if_false]
    by_cases hk : e.kind = .player ∨ e.kind = .husk
    · simp [hk]
    · simp [hk]
  refine ⟨hmain, ?_, ?_⟩
  · intro x hx
    rw [hmain]
    exact List.mem_append_left _ hx
  · intro hk
    rw [World.countHusk, hmain, if_neg hk]
    simp [World.countHusk, List.filter_append, EntityKind.isHusk]

/-- Witness for the amended C6 at a concrete input (the world obtained from
the first `destroy` of the counterexample scenario). -/
theorem destroy_second_call_effect_witness :
    (destroy ⟨0, .enemy .RAMMER⟩ ⟨[⟨1, .husk⟩], 2⟩).hittables =
      [⟨1, .husk⟩] ++ [⟨2, EntityKind.husk⟩] ∧
    (destroy ⟨0, .enemy .RAMMER⟩ ⟨[⟨1, .husk⟩], 2⟩).countHusk =
      (⟨[⟨1, .husk⟩], 2⟩ : World).countHusk + 1 := by
  have h := destroy_second_call_effect ⟨0, .enemy .RAMMER⟩ ⟨[⟨1, .husk⟩], 2⟩
    (by decide)
  refine ⟨?_, h.2.2 (by decide)⟩
  rw [h.1]
  decide

/-- C3 counterexample: a Spawner whose chosen `spawn_type` is `RAMMER` and
whose fabricator passes the cooldown gate successfully produces an Enemy,
yet the Spawner is *not* destroyed: `try_spawn_with_cooldown` returns
`False` for regular enemies, so `Spawner.update` never calls `destroy`, and
the spawner is still in `env.hittables` next to the new enemy. -/
theorem spawner_not_destroyed_on_enemy_spawn :
    spawner_spawn_step ⟨0, .RAMMER, ⟨500, -999⟩⟩ 0 ⟨[⟨0, .spawner⟩], 1⟩ =
      .ok (⟨0, .RAMMER, ⟨500, 0⟩⟩,
           ⟨[⟨0, .spawner⟩, ⟨1, .enemy .RAMMER⟩], 2⟩) ∧
    (⟨0, .spawner⟩ : Entity) ∈
      (⟨[⟨0, .spawner⟩, ⟨1, .enemy .RAMMER⟩], 2⟩ : World).hittables := by
  constructor
  · rfl
  · decide

/-- C3 (amended): `Spawner.update` destroys the Spawner in the same tick iff
its fabricator call returns `True`, which happens exactly when the cooldown
gate passes *and* the chosen `spawn_type` is the boss archetype with a
`Longinus` already present (boss-absent boss spawns raise inside the
`Longinus` constructor).  Successfully producing a regular Enemy returns
`False` and leaves the Spawner alive in `env.hittables`. -/
theorem spawner_destroy_iff_boss_signal (sp : SpawnerData) (now : ℤ)
    (w : World) :
    (now - sp.source.last_spawn_time < sp.source.spawn_cooldown →
      spawner_spawn_step sp now w = .ok (sp, w)) ∧
    (¬ now - sp.source.last_spawn_time < sp.source.spawn_cooldown →
      sp.spawn_type ≠ EnemyTypes.DIFFICULTY_LONGINUS →
      spawner_spawn_step sp now w =
        .ok ({ sp with source := ⟨sp.source.spawn_cooldown, now⟩ },
             w.addEntity (.enemy sp.spawn_type))) ∧
    (¬ now - sp.source.last_spawn_time < sp.source.spawn_cooldown →
      sp.spawn_type = EnemyTypes.DIFFICULTY_LONGINUS → w.hasLonginus = true →
      spawner_spawn_step sp now w =
        .ok ({ sp with source := ⟨sp.source.spawn_cooldown, now⟩ },
             destroy ⟨sp.id, .spawner⟩ w)) ∧
    (¬ now - sp.source.last_spawn_time < sp.source.spawn_cooldown →
      sp.spawn_type = EnemyTypes.DIFFICULTY_LONGINUS → w.hasLonginus = false →
      spawner_spawn_step sp now w = .error ()) := by
  have hbase := try_spawn_branches sp.source now now w w SPAWN_ENEMY
    SPAWN_ENEMY (some sp.spawn_type) (some sp.spawn_type) sp.spawn_type
  refine ⟨?_, ?_, ?_, ?_⟩
  · intro hg
    rw [spawner_spawn_step, hbase.1 hg]
    rfl
  · intro hg ht
    rw [spawner_spawn_step, hbase.2.2.1 hg ht]
    rfl
  · intro hg ht hl
    rw [spawner_spawn_step, ht, hbase.2.2.2.1 hg hl]
    rfl
  · intro hg ht hl
    rw [spawner_spawn_step, ht, hbase.2.2.2.2.1 hg hl]

/-- Witness for the amended C3 at a concrete input: a RAMMER production
leaves the spawner alive; a boss-type signal with a boss present destroys
it. -/
theorem spawner_destroy_iff_boss_signal_witness :
    spawner_spawn_step ⟨3, .RAMMER, ⟨500, -999⟩⟩ 0 ⟨[⟨3, .spawner⟩], 4⟩ =
      .ok (⟨3, .RAMMER, ⟨500, 0⟩⟩,
           ⟨[⟨3, .spawner⟩, ⟨4, .enemy .RAMMER⟩], 5⟩) ∧
    spawner_spawn_step ⟨3, .DIFFICULTY_LONGINUS, ⟨500, -999⟩⟩ 0
        ⟨[⟨3, .spawner⟩, ⟨7, .longinus⟩], 8⟩ =
      .ok (⟨3, .DIFFICULTY_LONGINUS, ⟨500, 0⟩⟩,
           destroy ⟨3, .spawner⟩ ⟨[⟨3, .spawner⟩, ⟨7, .longinus⟩], 8⟩) := by
  have h1 := spawner_destroy_iff_boss_signal ⟨3, .RAMMER, ⟨500, -999⟩⟩ 0
    ⟨[⟨3, .spawner⟩], 4⟩
  have h2 := spawner_destroy_iff_boss_signal
    ⟨3, .DIFFICULTY_LONGINUS, ⟨500, -999⟩⟩ 0
    ⟨[⟨3, .spawner⟩, ⟨7, .longinus⟩], 8⟩
  constructor
  · rw [h1.2.1 (by decide) (by decide)]
    rfl
  · exact h2.2.2.1 (by decide) rfl (by decide)

theorem sweep_time_bounds (r : Rect) (v : ℚ × ℚ) (b : Rect) (t : ℚ)
    (h : sweep_time r v b = some t) : 0 ≤ t ∧ t ≤ 1 := by
  rw [sweep_time] at h
  split at h
  · split at h
    · next hc =>
      cases h
      exact ⟨hc.2.1, hc.2.2⟩
    · cases h
  · cases h

theorem candidates_mem_iff (obstacles : List Obstacle) (i : ℕ) (b : Rect) :
    (i, b) ∈ candidates obstacles ↔ candidateBox obstacles i = some b := by
  rw [candidates, List.mem_filterMap]
  constructor
  · rintro ⟨⟨j, o⟩, hmem, hf⟩
    have hj : obstacles[j]? = some o := List.mk_mem_enum_iff_getElem?.mp hmem
    rcases hob : o.hitbox with _ | br
    · simp [hob] at hf
    · rcases hex : o.excluded with _ | _
      · simp only [hob, hex, Option.some.injEq, Prod.mk.injEq] at hf
        obtain ⟨rfl, rfl⟩ := hf
        simp [candidateBox, hj, hex, hob]
      · simp [hob, hex] at hf
  · intro hbox
    rcases hget : obstacles[i]? with _ | o
    · simp [candidateBox, hget] at hbox
    · rcases hex : o.excluded with _ | _
      · have hhb : o.hitbox = some b := by
          simpa [candidateBox, hget, hex] using hbox
        exact ⟨(i, o), List.mk_mem_enum_iff_getElem?.mpr hget,
          by simp [hhb, hex]⟩
      · simp [candidateBox, hget, hex] at hbox

theorem sweep_step_sets_overlap (r : Rect) (v : ℚ × ℚ)
    (obstacles : List Obstacle) (s : ℚ × Option ℕ) (c : ℕ × Rect)
    (hc : candidateBox obstacles c.1 = some c.2)
    (hcol : colliderect r c.2 = true) :
    overlapState r obstacles (sweep_step r v s c) := by
  rw [sweep_step]
  cases hst : sweep_time r v c.2 with
  | none =>
    simp only [hst, hcol, if_true]
    exact ⟨rfl, c.1, c.2, rfl, hc, hcol⟩
  | some t =>
    have ht01 := sweep_time_bounds r v c.2 t hst
    have hnlt : ¬ t < (-1 : ℚ) := by linarith [ht01.1]
    simp only [hst, hcol, if_true, hnlt, if_false]
    exact ⟨rfl, c.1, c.2, rfl, hc, hcol⟩

theorem sweep_step_overlap (r : Rect) (v : ℚ × ℚ)
    (obstacles : List Obstacle) (s : ℚ × Option ℕ) (c : ℕ × Rect)
    (hc : candidateBox obstacles c.1 = some c.2)
    (hs : overlapState r obstacles s) :
    overlapState r obstacles (sweep_step r v s c) := by
  by_cases hcol : colliderect r c.2
  · exact sweep_step_sets_overlap r v obstacles s c hc hcol
  · rw [sweep_step]
    cases hst : sweep_time r v c.2 with
    | none =>
      simpa only [hst, hcol, if_false, Bool.false_eq_true] using hs
    | some t =>
      have ht01 := sweep_time_bounds r v c.2 t hst
      have hnlt : ¬ t < s.1 := by rw [hs.1]; linarith [ht01.1]
      simpa only [hst, hcol, if_false, Bool.false_eq_true, hnlt] using hs

theorem sweep_fold_overlap_preserve (r : Rect) (v : ℚ × ℚ)
    (obstacles : List Obstacle) :
    ∀ (l : List (ℕ × Rect)) (s : ℚ × Option ℕ),
      (∀ c ∈ l, candidateBox obstacles c.1 = some c.2) →
      overlapState r obstacles s →
      overlapState r obstacles (l.foldl (sweep_step r v) s) := by
  intro l
  induction l with
  | nil =>
    intro s _ hs
    simpa using hs
  | cons c cs ih =>
    intro s hl hs
    rw [List.foldl_cons]
    exact ih (sweep_step r v s c)
      (fun d hd => hl d (List.mem_cons_of_mem _ hd))
      (sweep_step_overlap r v obstacles s c (hl c (List.mem_cons_self _ _)) hs)

theorem sweep_fold_overlap (r : Rect) (v : ℚ × ℚ)
    (obstacles : List Obstacle) :
    ∀ (l : List (ℕ × Rect)) (s : ℚ × Option ℕ),
      (∀ c ∈ l, candidateBox obstacles c.1 = some c.2) →
      (∃ c ∈ l, colliderect r c.2 = true) →
      overlapState r obstacles (l.foldl (sweep_step r v) s) := by
  intro l
  induction l with
  | nil =>
    rintro s _ ⟨c, hc, _⟩
    cases hc
  | cons c cs ih =>
    rintro s hl ⟨d, hd, hcold⟩
    rw [List.foldl_cons]
    rcases List.mem_cons.mp hd with rfl | hd'
    · exact sweep_fold_overlap_preserve r v obstacles cs
        (sweep_step r v s d)
        (fun e he => hl e (List.mem_cons_of_mem _ he))
        (sweep_step_sets_overlap r v obstacles s d
          (hl d (List.mem_cons_self _ _)) hcold)
    · exact ih (sweep_step r v s c)
        (fun e he => hl e (List.mem_cons_of_mem _ he)) ⟨d, hd', hcold⟩

theorem sweep_step_good (r : Rect) (v : ℚ × ℚ) (obstacles : List Obstacle)
    (s : ℚ × Option ℕ) (c : ℕ × Rect)
    (hc : candidateBox obstacles c.1 = some c.2)
    (hs : ∀ j, s.2 = some j → goodHit r v obstacles j) :
    ∀ j, (sweep_step r v s c).2 = some j → goodHit r v obstacles j := by
  intro j hj
  rw [sweep_step] at hj
  cases hst : sweep_time r v c.2 with
  | none =>
    by_cases hcol : colliderect r c.2
    · simp only [hst, hcol, if_true] at hj
      cases hj
      exact ⟨c.2, hc, Or.inl hcol⟩
    · simp only [hst, hcol, if_false, Bool.false_eq_true] at hj
      exact hs j hj
  | some t =>
    have ht01 := sweep_time_bounds r v c.2 t hst
    by_cases hcol : colliderect r c.2
    · have hnlt : ¬ t < (-1 : ℚ) := by linarith [ht01.1]
      simp only [hst, hcol, if_true, hnlt, if_false] at hj
      cases hj
      exact ⟨c.2, hc, Or.inl hcol⟩
    · by_cases hlt : t < s.1
      · simp only [hst, hcol, if_false, Bool.false_eq_true, hlt,
          if_true] at hj
        cases hj
        exact ⟨c.2, hc, Or.inr ⟨t, hst, ht01⟩⟩
      · simp only [hst, hcol, if_false, Bool.false_eq_true, hlt] at hj
        exact hs j hj

theorem sweep_fold_good (r : Rect) (v : ℚ × ℚ) (obstacles : List Obstacle) :
    ∀ (l : List (ℕ × Rect)) (s : ℚ × Option ℕ),
      (∀ c ∈ l, candidateBox obstacles c.1 = some c.2) →
      (∀ j, s.2 = some j → goodHit r v obstacles j) →
      ∀ j, (l.foldl (sweep_step r v) s).2 = some j →
        goodHit r v obstacles j := by
  intro l
  induction l with
  | nil =>
    intro s _ hs j hj
    rw [List.foldl_nil] at hj
    exact hs j hj
  | cons c cs ih =>
    intro s hl hs j hj
    rw [List.foldl_cons] at hj
    exact ih (sweep_step r v s c)
      (fun d hd => hl d (List.mem_cons_of_mem _ hd))
      (sweep_step_good r v obstacles s c (hl c (List.mem_cons_self _ _)) hs) j hj

/-- C4: swept-AABB static-overlap priority.  (1) If any live candidate (not
excluded, hitbox present) statically overlaps the moving rectangle at t=0,
the final sweep state carries the sentinel entry time `-1` and `rect_sweep`
returns a statically overlapping candidate — so such a candidate is
preferred over every candidate with a swept entry time in `[0,1]`.  (2) Any
returned candidate is live and either statically overlaps or has a valid
swept entry time `t ∈ [0,1]` with `t_entry ≤ t_exit`.  (3) Consequently a
non-overlapping candidate whose sweep computation rejects it — entry > exit,
entry < 0, entry > 1, or a zero-velocity axis without static overlap on that
axis (all of which make `sweep_time` return `none`) — is never returned. -/
theorem rect_sweep_static_overlap_priority (r : Rect) (v : ℚ × ℚ)
    (obstacles : List Obstacle) :
    ((∃ i b, candidateBox obstacles i = some b ∧ colliderect r b = true) →
      (sweep_run r v obstacles).1 = -1 ∧
      ∃ j b, rect_sweep r v obstacles = some j ∧
        candidateBox obstacles j = some b ∧ colliderect r b = true) ∧
    (∀ j, rect_sweep r v obstacles = some j → goodHit r v obstacles j) ∧
    (∀ j b, candidateBox obstacles j = some b → colliderect r b = false →
      sweep_time r v b = none → ¬ rect_sweep r v obstacles = some j) := by
  have hcons : ∀ c ∈ candidates obstacles,
      candidateBox obstacles c.1 = some c.2 := by
    intro c hcmem
    exact (candidates_mem_iff obstacles c.1 c.2).mp hcmem
  have hgood : ∀ j, rect_sweep r v obstacles = some j →
      goodHit r v obstacles j := by
    intro j hj
    refine sweep_fold_good r v obstacles (candidates obstacles) (1, none)
      hcons ?_ j hj
    intro d hd
    cases hd
  refine ⟨?_, hgood, ?_⟩
  · rintro ⟨i, b, hib, hcol⟩
    have hmem : (i, b) ∈ candidates obstacles :=
      (candidates_mem_iff obstacles i b).mpr hib
    have hov := sweep_fold_overlap r v obstacles (candidates obstacles)
      (1, none) hcons ⟨(i, b), hmem, hcol⟩
    exact ⟨hov.1, hov.2⟩
  · intro j b hb hcol hst hret
    obtain ⟨b', hb', hcase⟩ := hgood j hret
    rw [hb] at hb'
    cases hb'
    rcases hcase with hcol' | ⟨t, ht, _, _⟩
    · rw [hcol] at hcol'
      cases hcol'
    · rw [hst] at ht
      cases ht

/-- Witness for C4 at a concrete input: the first obstacle statically
overlaps the moving rectangle and is returned with the sentinel. -/
theorem rect_sweep_static_overlap_priority_witness :
    (sweep_run ⟨0, 0, 10, 10⟩ ((1 : ℚ), (0 : ℚ))
        [⟨some ⟨5, 5, 10, 10⟩, false⟩, ⟨some ⟨30, 0, 10, 10⟩, false⟩]).1 =
      -1 ∧
    ∃ j b, rect_sweep ⟨0, 0, 10, 10⟩ ((1 : ℚ), (0 : ℚ))
        [⟨some ⟨5, 5, 10, 10⟩, false⟩, ⟨some ⟨30, 0, 10, 10⟩, false⟩] =
        some j ∧
      candidateBox [⟨some ⟨5, 5, 10, 10⟩, false⟩, ⟨some ⟨30, 0, 10, 10⟩, false⟩]
          j = some b ∧
      colliderect ⟨0, 0, 10, 10⟩ b = true := by
  have h := rect_sweep_static_overlap_priority ⟨0, 0, 10, 10⟩
    ((1 : ℚ), (0 : ℚ))
    [⟨some ⟨5, 5, 10, 10⟩, false⟩, ⟨some ⟨30, 0, 10, 10⟩, false⟩]
  exact h.1 ⟨0, ⟨5, 5, 10, 10⟩, by decide, by decide⟩

/-- C8 (code evaluated at the failing input): an Explosion with damage 50,
radius 20, lifetime 500 ms damages the same target twice within its
lifetime.  Tick at t=0: the target (health 100, `i_time` 100) takes damage
(health 50) — and the returned explosion still has `already_hit = []`, the
source never records the hit.  The target's invincibility decays at t=150.
Tick at t=200 (inside the 500 ms lifetime): the same target takes damage
again (health 0), contradicting the claim that a target is damaged at most
once per explosion lifetime. -/
theorem explosion_double_damage :
    Explosion.update ⟨(0, 0), 50, 20, ⟨-20, -20, 40, 40⟩, 500, 0, []⟩ 0
        [⟨1, ⟨100, false, -9999, 100⟩, (5, 0), some ⟨0, -5, 10, 10⟩⟩] =
      some (⟨(0, 0), 50, 20, ⟨-20, -20, 40, 40⟩, 500, 0, []⟩,
            [⟨1, ⟨50, true, 0, 100⟩, (5, 0), some ⟨0, -5, 10, 10⟩⟩]) ∧
    invincibility_decay ⟨50, true, 0, 100⟩ 150 = ⟨50, false, 0, 100⟩ ∧
    Explosion.update ⟨(0, 0), 50, 20, ⟨-20, -20, 40, 40⟩, 500, 0, []⟩ 200
        [⟨1, ⟨50, false, 0, 100⟩, (5, 0), some ⟨0, -5, 10, 10⟩⟩] =
      some (⟨(0, 0), 50, 20, ⟨-20, -20, 40, 40⟩, 500, 0, []⟩,
            [⟨1, ⟨0, true, 200, 100⟩, (5, 0), some ⟨0, -5, 10, 10⟩⟩]) := by
  refine ⟨?_, ?_, ?_⟩
  · simp only [Explosion.update, explosion_hits, explosion_prefilter,
      sqrt_le_add, colliderect, take_damage, List.map, Rect.right,
      Rect.bottom]
    norm_num
  · simp [invincibility_decay]
  · simp only [Explosion.update, explosion_hits, explosion_prefilter,
      sqrt_le_add, colliderect, take_damage, List.map, Rect.right,
      Rect.bottom]
    norm_num

theorem pick_position_far (agent : ℚ × ℚ) (stream : ℕ → ℚ × ℚ) :
    ∀ (fuel k : ℕ) (p : ℚ × ℚ) (k' : ℕ),
      pick_position agent stream fuel k = some (p, k') →
      too_close p agent = false := by
  intro fuel
  induction fuel with
  | zero =>
    intro k p k' h
    cases h
  | succ n ih =>
    intro k p k' h
    rw [pick_position] at h
    by_cases hc : too_close (stream k) agent
    · rw [if_pos hc] at h
      exact ih (k + 1) p k' h
    · rw [if_neg hc] at h
      cases h
      exact Bool.eq_false_iff.mpr hc

theorem select_positions_spec (agent : ℚ × ℚ) (stream : ℕ → ℚ × ℚ)
    (fuel : ℕ) :
    ∀ (n k : ℕ) (ps : List (ℚ × ℚ)) (k' : ℕ),
      select_spawners_positions agent stream fuel n k = some (ps, k') →
      ps.length = n ∧ ∀ p ∈ ps, too_close p agent = false := by
  intro n
  induction n with
  | zero =>
    intro k ps k' h
    cases h
    exact ⟨rfl, by intro p hp; cases hp⟩
  | succ m ih =>
    intro k ps k' h
    rw [select_spawners_positions] at h
    cases hp : pick_position agent stream fuel k with
    | none =>
      rw [hp] at h
      cases h
    | some pk =>
      obtain ⟨p, k1⟩ := pk
      simp only [hp] at h
      cases hsel : select_spawners_positions agent stream fuel m k1 with
      | none =>
        simp only [hsel] at h
        cases h
      | some psk =>
        obtain ⟨ps0, k2⟩ := psk
        simp only [hsel, Option.some.injEq, Prod.mk.injEq] at h
        obtain ⟨rfl, rfl⟩ := h
        obtain ⟨hlen, hfar⟩ := ih k1 ps0 k2 hsel
        refine ⟨by simp [hlen], ?_⟩
        intro q hq
        rcases List.mem_cons.mp hq with rfl | hq'
        · exact pick_position_far agent stream fuel k q k1 hp
        · exact hfar q hq'

/-- Teleporters whose fabricator was just stamped at `now` with cooldown
1000 all fail the gate in the same tick, so `try_spawning_spawners` changes
nothing. -/
theorem try_spawning_fresh (now : ℤ) :
    ∀ (tps : List Teleporter) (w : World),
      (∀ t ∈ tps, t.fab = ⟨1000, now⟩) →
      try_spawning_spawners now tps w = some (tps, w) := by
  intro tps
  induction tps with
  | nil =>
    intro w _
    rfl
  | cons t ts ih =>
    intro w hfab
    have ht : t.fab = ⟨1000, now⟩ := hfab t (List.mem_cons_self _ _)
    have hgate : t.fab.try_spawn_with_cooldown now w SPAWN_SPAWNER none =
        .ok (false, t.fab, w) := by
      rw [Fabricator.try_spawn_with_cooldown, if_pos]
      rw [ht]
      norm_num
    rw [try_spawning_spawners]
    simp only [hgate, ih w (fun d hd => hfab d (List.mem_cons_of_mem _ hd))]

/-- C9: respawn-transition bookkeeping of `ArenaEnv.update`.  In a tick
where the player is alive, no Spawner is in `hittables` and the teleporter
list is empty: difficulty increments by exactly one, `out_of_spawners` is
stamped with the current tick, exactly `difficulty + 1` Teleporters (for the
new difficulty) are created — one per planned spawn position, each at least
160 units from the player — and the world gains no entity this tick (the
fresh teleporters' cooldown gates all fail).  In a tick where Spawners still
exist, the teleporter list is cleared and the difficulty is unchanged. -/
theorem awaiting_respawn_bookkeeping (st : ArenaState) (now : ℤ)
    (stream : ℕ → ℚ × ℚ) (k fuel : ℕ) (st' : ArenaState)
    (hd : 0 ≤ st.difficulty) :
    (¬ st.agent_health ≤ 0 →
      (st.world.hittables.filter (fun e => e.kind.isSpawner)).length = 0 →
      st.teleporters = [] →
      arena_update_tail st now stream k fuel = some st' →
      st'.difficulty = st.difficulty + 1 ∧
      st'.out_of_spawners = now ∧
      (st'.teleporters.length : ℤ) = st'.difficulty + 1 ∧
      st'.world = st.world ∧
      ∀ t ∈ st'.teleporters, too_close t.pos st.agent_pos = false) ∧
    (¬ st.agent_health ≤ 0 →
      (st.world.hittables.filter (fun e => e.kind.isSpawner)).length ≠ 0 →
      arena_update_tail st now stream k fuel = some st' →
      st'.teleporters = [] ∧ st'.difficulty = st.difficulty) := by
  constructor
  · intro halive hnospawn htel hupd
    rw [arena_update_tail, if_neg halive, if_pos hnospawn] at hupd
    have hlen0 : st.teleporters.length = 0 := by rw [htel]; rfl
    rw [if_pos hlen0] at hupd
    cases hsel : select_spawners_positions st.agent_pos stream fuel
        ((st.difficulty + 1 + 1).toNat) k with
    | none =>
      simp only [hsel] at hupd
      cases hupd
    | some psk =>
      obtain ⟨ps, kf⟩ := psk
      obtain ⟨hlen, hfar⟩ := select_positions_spec st.agent_pos stream fuel
        ((st.difficulty + 1 + 1).toNat) k ps kf hsel
      have hfresh := try_spawning_fresh now
        (ps.map fun p => (⟨p, ⟨1000, now⟩, now⟩ : Teleporter)) st.world
        (by
          intro t ht
          obtain ⟨p, _, rfl⟩ := List.mem_map.mp ht
          rfl)
      simp only [hsel, hfresh, Option.some.injEq] at hupd
      subst hupd
      refine ⟨rfl, rfl, ?_, rfl, ?_⟩
      · simp only [List.length_map, hlen]
        omega
      · intro t ht
        obtain ⟨p, hp, rfl⟩ := List.mem_map.mp ht
        exact hfar p hp
  · intro halive hspawn hupd
    rw [arena_update_tail, if_neg halive, if_neg hspawn] at hupd
    cases hupd
    exact ⟨rfl, rfl⟩

/-- Witness for C9 at a concrete input: difficulty 0, one live player, no
spawners, no teleporters; the tick increments difficulty to 1, stamps
`out_of_spawners = 5000`, and creates exactly 2 teleporters, each 200 ≥ 160
units from the player. -/
theorem awaiting_respawn_bookkeeping_witness :
    arena_update_tail ⟨0, -999, [], ⟨[⟨0, .player⟩], 1⟩, 100, (400, 400)⟩
        5000 (fun _ => ((400 : ℚ), (600 : ℚ))) 0 1 =
      some ⟨1, 5000,
            [⟨(400, 600), ⟨1000, 5000⟩, 5000⟩,
             ⟨(400, 600), ⟨1000, 5000⟩, 5000⟩],
            ⟨[⟨0, .player⟩], 1⟩, 100, (400, 400)⟩ ∧
    (⟨1, 5000,
      [⟨(400, 600), ⟨1000, 5000⟩, 5000⟩,
       ⟨(400, 600), ⟨1000, 5000⟩, 5000⟩],
      ⟨[⟨0, .player⟩], 1⟩, 100, (400, 400)⟩ : ArenaState).difficulty =
      0 + 1 ∧
    ((⟨1, 5000,
       [⟨(400, 600), ⟨1000, 5000⟩, 5000⟩,
        ⟨(400, 600), ⟨1000, 5000⟩, 5000⟩],
       ⟨[⟨0, .player⟩], 1⟩, 100, (400, 400)⟩ :
        ArenaState).teleporters.length : ℤ) = 1 + 1 ∧
    too_close ((400 : ℚ), (600 : ℚ)) ((400 : ℚ), (400 : ℚ)) = false := by
  have heval : arena_update_tail
      ⟨0, -999, [], ⟨[⟨0, .player⟩], 1⟩, 100, (400, 400)⟩
      5000 (fun _ => ((400 : ℚ), (600 : ℚ))) 0 1 =
      some ⟨1, 5000,
            [⟨(400, 600), ⟨1000, 5000⟩, 5000⟩,
             ⟨(400, 600), ⟨1000, 5000⟩, 5000⟩],
            ⟨[⟨0, .player⟩], 1⟩, 100, (400, 400)⟩ := by
    norm_num [arena_update_tail, select_spawners_positions, pick_position,
      too_close, try_spawning_spawners, Fabricator.try_spawn_with_cooldown,
      EntityKind.isSpawner, SPAWN_SPAWNER]
  have h := (awaiting_respawn_bookkeeping
    ⟨0, -999, [], ⟨[⟨0, .player⟩], 1⟩, 100, (400, 400)⟩ 5000
    (fun _ => ((400 : ℚ), (600 : ℚ))) 0 1
    ⟨1, 5000,
     [⟨(400, 600), ⟨1000, 5000⟩, 5000⟩,
      ⟨(400, 600), ⟨1000, 5000⟩, 5000⟩],
     ⟨[⟨0, .player⟩], 1⟩, 100, (400, 400)⟩ (by norm_num)).1
    (by norm_num) (by decide) rfl heval
  refine ⟨heval, h.1, ?_, ?_⟩
  · have h3 := h.2.2.1
    simp at h3
    simp [h3]
  · exact h.2.2.2.2 ⟨(400, 600), ⟨1000, 5000⟩, 5000⟩
      (List.mem_cons_self _ _)

theorem sign_branch_eq (z : PyFloat) :
    (if z.eqZero then PyFloat.fin 0 else copysign_one z) =
      .fin (signVal z) := by
  cases z with
  | fin q =>
    by_cases hq : q = 0
    · simp [PyFloat.eqZero, copysign_one, signVal, hq]
    · by_cases hlt : q < 0
      · simp [PyFloat.eqZero, copysign_one, signVal, PyFloat.sgnBit, hq, hlt]
      · simp [PyFloat.eqZero, copysign_one, signVal, PyFloat.sgnBit, hq, hlt]
  | inf s =>
    cases s
    · simp [PyFloat.eqZero, copysign_one, signVal, PyFloat.sgnBit]
    · simp [PyFloat.eqZero, copysign_one, signVal, PyFloat.sgnBit]
  | nan s =>
    cases s
    · simp [PyFloat.eqZero, copysign_one, signVal, PyFloat.sgnBit]
    · simp [PyFloat.eqZero, copysign_one, signVal, PyFloat.sgnBit]

theorem signVal_ne_zero_of_not_finite (z : PyFloat)
    (h : z.isfinite = false) : signVal z ≠ 0 := by
  cases z with
  | fin q => simp [PyFloat.isfinite] at h
  | inf s => cases s <;> simp [signVal]
  | nan s => cases s <;> simp [signVal]

/-- The signs path of `vec_norm`: with a non-finite component and a nonzero
first hypot, the result is the finite pair built from the component signs. -/
theorem vec_norm_signs_path (hypotFin : ℚ → ℚ → ℚ)
    (hzero : ∀ a b : ℚ, hypotFin a b = 0 ↔ a = 0 ∧ b = 0)
    (x y : PyFloat) (hnf : x.isfinite = false ∨ y.isfinite = false)
    (hlen : (mhypot hypotFin x y).eqZero = false) :
    vec_norm hypotFin (x, y) =
      .ok (.fin (signVal x / hypotFin (signVal x) (signVal y)),
           .fin (signVal y / hypotFin (signVal x) (signVal y))) ∧
    hypotFin (signVal x) (signVal y) ≠ 0 := by
  have hsv : signVal x ≠ 0 ∨ signVal y ≠ 0 := by
    rcases hnf with h | h
    · exact Or.inl (signVal_ne_zero_of_not_finite x h)
    · exact Or.inr (signVal_ne_zero_of_not_finite y h)
  have hL : hypotFin (signVal x) (signVal y) ≠ 0 := by
    intro h0
    obtain ⟨hx0, hy0⟩ := (hzero _ _).mp h0
    rcases hsv with h | h
    · exact h hx0
    · exact h hy0
  have hbr : (!x.isfinite || !y.isfinite) = true := by
    rcases hnf with h | h
    · simp [h]
    · simp [h]
  have hL2 : (mhypot hypotFin (.fin (signVal x))
      (.fin (signVal y))).eqZero = false := by
    simp [mhypot, PyFloat.eqZero, hL]
  refine ⟨?_, hL⟩
  rw [vec_norm]
  simp only [hlen, Bool.false_eq_true, if_false]
  simp only [hbr, if_true]
  simp only [sign_branch_eq]
  simp only [hL2, Bool.false_eq_true, if_false]
  simp only [mhypot]
  simp only [pydiv, if_neg hL]
  rfl

/-- C10: `vec_norm` is total on every float pair — it never raises
`ZeroDivisionError` and always returns a pair of *finite* floats; the zero
vector yields `(0.0, 0.0)` through the explicit guard rather than a
division by zero; and a vector with an infinite component is normalized
through the sign path: the result is the finite pair built from the
component signs divided by their (nonzero) magnitude.  The hypotheses on
`hypotFin` are exactly what `math.hypot`'s finite case satisfies: it
vanishes precisely on the zero vector. -/
theorem vec_norm_total (hypotFin : ℚ → ℚ → ℚ)
    (hzero : ∀ a b : ℚ, hypotFin a b = 0 ↔ a = 0 ∧ b = 0)
    (x y : PyFloat) :
    (∃ p q : ℚ, vec_norm hypotFin (x, y) = .ok (.fin p, .fin q)) ∧
    vec_norm hypotFin (.fin 0, .fin 0) = .ok (.fin 0, .fin 0) ∧
    (x.isInf = true ∨ y.isInf = true →
      vec_norm hypotFin (x, y) =
        .ok (.fin (signVal x / hypotFin (signVal x) (signVal y)),
             .fin (signVal y / hypotFin (signVal x) (signVal y))) ∧
      hypotFin (signVal x) (signVal y) ≠ 0) := by
  refine ⟨?_, ?_, ?_⟩
  · by_cases hlen : (mhypot hypotFin x y).eqZero = true
    · refine ⟨0, 0, ?_⟩
      rw [vec_norm]
      simp only [hlen, if_true]
    · have hlen' : (mhypot hypotFin x y).eqZero = false :=
        Bool.not_eq_true _ ▸ (Bool.eq_false_iff.mpr hlen)
      by_cases hfin : x.isfinite = true ∧ y.isfinite = true
      · obtain ⟨hx, hy⟩ := hfin
        cases x with
        | fin a =>
          cases y with
          | fin b =>
            have hab : hypotFin a b ≠ 0 := by
              intro h0
              rw [show mhypot hypotFin (.fin a) (.fin b) =
                  .fin (hypotFin a b) from rfl] at hlen'
              simp [PyFloat.eqZero, h0] at hlen'
            refine ⟨a / hypotFin a b, b / hypotFin a b, ?_⟩
            rw [vec_norm]
            simp only [hlen', Bool.false_eq_true, if_false]
            have hbr : (!PyFloat.isfinite (.fin a) ||
                !PyFloat.isfinite (.fin b)) = false := by
              simp [PyFloat.isfinite]
            simp only [hbr, Bool.false_eq_true, if_false]
            simp only [mhypot, pydiv, if_neg hab]
            rfl
          | inf s => simp [PyFloat.isfinite] at hy
          | nan s => simp [PyFloat.isfinite] at hy
        | inf s => simp [PyFloat.isfinite] at hx
        | nan s => simp [PyFloat.isfinite] at hx
      · have hnf : x.isfinite = false ∨ y.isfinite = false := by
          cases hbx : x.isfinite with
          | false => exact Or.inl rfl
          | true =>
            cases hby : y.isfinite with
            | false => exact Or.inr rfl
            | true => exact absurd ⟨hbx, hby⟩ hfin
        obtain ⟨heq, _⟩ := vec_norm_signs_path hypotFin hzero x y hnf hlen'
        exact ⟨_, _, heq⟩
  · have h0 : hypotFin 0 0 = 0 := (hzero 0 0).mpr ⟨rfl, rfl⟩
    rw [vec_norm]
    simp [mhypot, PyFloat.eqZero, h0]
  · intro hinf
    have hnf : x.isfinite = false ∨ y.isfinite = false := by
      rcases hinf with h | h
      · left
        cases x <;> simp_all [PyFloat.isInf, PyFloat.isfinite]
      · right
        cases y <;> simp_all [PyFloat.isInf, PyFloat.isfinite]
    have hlen' : (mhypot hypotFin x y).eqZero = false := by
      rcases hinf with h | h <;> cases x <;> cases y <;>
        simp_all [PyFloat.isInf, mhypot, PyFloat.eqZero]
    exact vec_norm_signs_path hypotFin hzero x y hnf hlen'

/-- Witness for C10: with the taxicab instantiation of the finite `hypot`
magnitude, the vector `(+inf, 0.0)` normalizes to the finite unit vector
`(1.0, 0.0)` and the zero vector to `(0.0, 0.0)`, with no exception. -/
theorem vec_norm_total_witness :
    vec_norm (fun a b => |a| + |b|) (.inf false, .fin 0) =
      .ok (.fin 1, .fin 0) ∧
    vec_norm (fun a b => |a| + |b|) (.fin 0, .fin 0) =
      .ok (.fin 0, .fin 0) := by
  have hz : ∀ a b : ℚ, |a| + |b| = 0 ↔ a = 0 ∧ b = 0 := by
    intro a b
    constructor
    · intro h
      constructor
      · exact abs_eq_zero.mp
          (le_antisymm (by linarith [abs_nonneg b, abs_nonneg a])
            (abs_nonneg a))
      · exact abs_eq_zero.mp
          (le_antisymm (by linarith [abs_nonneg b, abs_nonneg a])
            (abs_nonneg b))
    · rintro ⟨rfl, rfl⟩
      simp
  have h := vec_norm_total (fun a b => |a| + |b|) hz (.inf false) (.fin 0)
  refine ⟨?_, h.2.1⟩
  have h3 := h.2.2 (Or.inl rfl)
  rw [h3.1]
  norm_num [signVal]
